import Mathlib

/-!
Shallow embedding of the valuation engine of `streamlit_dcf_app.py`
(DCF portfolio analyzer): the FCF resolver `get_fcf`, the DCF calculator
`dcf_valuation`, the comparison `valuation_flag`, and the portfolio
aggregator `analyze_portfolio`.

Modelling conventions:
* Python floats are modelled as exact rationals (`ℚ`); the spec treats
  the arithmetic as exact and rounding as presentation-only.
* `None` is modelled as `Option.none`; Python truthiness of an optional
  number (`if x:`) is `truthy` below (present and nonzero).
* A Python function that can raise an uncaught exception is modelled in
  `Except Unit`: `.error ()` marks a raised exception (for the arithmetic
  in `dcf_valuation` the only possible one is `ZeroDivisionError`, raised
  by `x / 0.0`).
* External data (yfinance) is an explicit environment `Env`; a fetch that
  raises is `.error ()`, a fetch that returns no data is `.ok none`.
* Strings are ASCII in all label data, so Python's `str.lower` coincides
  with per-character `Char.toLower`.
-/

namespace DCF

/-- Python truthiness of an optional number: `if x:` is true iff `x` is
not `None` and not zero. -/
def truthy : Option ℚ → Bool
  | none => false
  | some v => v != 0

/-- `needle` occurs contiguously inside `hay` (Python's `needle in hay`
on strings, viewed as character lists). -/
def containsSub (hay needle : List Char) : Bool :=
  hay.tails.any fun t => needle.isPrefixOf t

/-- Lower-case a character list (Python `str.lower()` on ASCII text). -/
def lowerStr (s : List Char) : List Char :=
  s.map Char.toLower

/-- `label.lower() in idx.lower()`: case-insensitive substring test of a
candidate synonym `cand` against a statement line-item label `label`. -/
def labelMatches (cand label : String) : Bool :=
  containsSub (lowerStr label.data) (lowerStr cand.data)

/-- One line item of the cash-flow statement: label, most recent period
value (`.iloc[0]`), and the remaining (older) period values.  A non-empty
pandas frame has at least one column, so each row of a frame that passed
the `cf.empty` check has a first value. -/
abbrev StmtItem := String × ℚ × List ℚ

/-- The cash-flow statement: line items in the frame's natural row order
(`cf.index` order). -/
abbrev Statement := List StmtItem

/-- `find_label` (lines 26–31): for each candidate label in priority
order, scan the statement rows in order; the first row whose label
contains the candidate (case-insensitively) wins, and its most recent
period value is returned. -/
def find_label (cf : Statement) : List String → Option ℚ
  | [] => none
  | label :: rest =>
    match cf.find? (fun item => labelMatches label item.1) with
    | some item => some item.2.1
    | none => find_label cf rest

/-- Candidate synonyms for operating cash flow (line 33). -/
def ocfLabels : List String :=
  ["Total Cash From Operating Activities", "Operating Cash Flow"]

/-- Candidate synonyms for capital expenditures (line 34). -/
def capexLabels : List String :=
  ["Capital Expenditures", "Capital Expenditures - Fixed Assets"]

/-- The external data source (yfinance), per ticker.  `.error ()` models
a raised retrieval exception, `.ok none` absent data. -/
structure Env where
  cashflow : String → Except Unit (Option Statement)
  freeCashflowInfo : String → Except Unit (Option ℚ)
  sharesOutstanding : String → Except Unit (Option ℚ)
  currentPrice : String → Except Unit (Option ℚ)

/-- `get_fcf` (lines 13–59).  The whole body is wrapped in
`try/except Exception`, so any retrieval error yields `None`.  Absent or
empty cash-flow data yields `None`.  Otherwise both quantities are looked
up by `find_label`; if both resolve, FCF is their sum; otherwise the
summary `freeCashflow` field is used when truthy (note `if fallback_fcf:`
is Python truthiness: a fallback of `0` is rejected), else `None`. -/
def get_fcf (env : Env) (ticker : String) : Option ℚ :=
  match env.cashflow ticker with
  | .error _ => none
  | .ok none => none
  | .ok (some cf) =>
    match find_label cf ocfLabels, find_label cf capexLabels with
    | some ocf, some capex => some (ocf + capex)
    | _, _ =>
      match env.freeCashflowInfo ticker with
      | .error _ => none
      | .ok none => none
      | .ok (some fallback) => if fallback = 0 then none else some fallback

/-- The projected NPV sum of `dcf_valuation` (lines 64–67):
`sum(fcf * (1+g)**year / (1+d)**year for year in range(1, n+1))`. -/
def npv (fcf d g : ℚ) : ℕ → ℚ
  | 0 => 0
  | n + 1 => npv fcf d g n + fcf * (1 + g) ^ (n + 1) / (1 + d) ^ (n + 1)

/-- `terminal_value` (line 68):
`(fcf * (1+g)**n) * (1+g) / (d - g)`. -/
def terminal_value (fcf d g : ℚ) (n : ℕ) : ℚ :=
  (fcf * (1 + g) ^ n) * (1 + g) / (d - g)

/-- `terminal_value_discounted` (line 69): `terminal_value / (1+d)**n`. -/
def terminal_value_discounted (fcf d g : ℚ) (n : ℕ) : ℚ :=
  terminal_value fcf d g n / (1 + d) ^ n

/-- `dcf_valuation` (lines 61–70).  `None` or non-positive FCF returns
`None`.  Otherwise the function evaluates the NPV sum plus the discounted
terminal value; in Python this raises `ZeroDivisionError` (modelled as
`.error ()`) exactly when a divisor is zero: `(1+d)**year` with
`year ≥ 1` inside the sum when `1 + d = 0`, or `d - g` in the terminal
value when `d = g`.  There is no discount-rate/growth-rate validity
check. -/
def dcf_valuation (fcf : Option ℚ) (d g : ℚ) (n : ℕ) : Except Unit (Option ℚ) :=
  match fcf with
  | none => .ok none
  | some f =>
    if f ≤ 0 then .ok none
    else if (1 + d = 0 ∧ 1 ≤ n) ∨ d = g then .error ()
    else .ok (some (npv f d g n + terminal_value_discounted f d g n))

/-- The spec's projected value, written as the spec writes it:
`Σ_{year=1}^{n} fcf × (1+g)^year / (1+d)^year`. -/
def projectedValueSpec (fcf d g : ℚ) (n : ℕ) : ℚ :=
  ∑ year in Finset.Icc 1 n, fcf * (1 + g) ^ year / (1 + d) ^ year

/-- The spec's terminal value as of year `n`:
`fcf × (1+g)^n × (1+g) / (d − g)`. -/
def terminalValueSpec (fcf d g : ℚ) (n : ℕ) : ℚ :=
  fcf * (1 + g) ^ n * (1 + g) / (d - g)

/-- The spec's discounted terminal value: `terminalValue / (1+d)^n`. -/
def terminalValueDiscountedSpec (fcf d g : ℚ) (n : ℕ) : ℚ :=
  terminalValueSpec fcf d g n / (1 + d) ^ n

/-- Python `round(x, 2)`: round to two decimal places, ties to the even
multiple (banker's rounding), in exact arithmetic. -/
def round2 (q : ℚ) : ℚ :=
  let s := q * 100
  let f := ⌊s⌋
  let frac := s - f
  (if frac < 1/2 then (f : ℚ)
   else if 1/2 < frac then (f : ℚ) + 1
   else if f % 2 = 0 then (f : ℚ) else (f : ℚ) + 1) / 100

/-- The default tolerance of `valuation_flag` (line 72). -/
def tolerance : ℚ := 1/10

/-- `valuation_flag` (lines 72–81): `if not dcf or not market` (Python
truthiness: absent or zero) gives `None`; otherwise the relative
difference is compared against the tolerance band. -/
def valuation_flag (dcf market : Option ℚ) : Option String :=
  if !truthy dcf || !truthy market then none
  else
    let diff := (dcf.getD 0 - market.getD 0) / market.getD 0
    if diff > tolerance then some "Undervalued"
    else if diff < -tolerance then some "Overvalued"
    else some "Fairly Valued"

/-- One output row of `analyze_portfolio` (lines 105–114); `none` models
the `None` that is later displayed as "N/A". -/
structure HoldingResult where
  ticker : String
  shares : ℚ
  valuePerShare : Option ℚ
  marketPrice : Option ℚ
  difference : Option ℚ
  upsidePercent : Option ℚ
  valuation : Option String
  holdingValue : Option ℚ

/-- Line 97: `value_per_share = (intrinsic_value / shares_outstanding)
if intrinsic_value and shares_outstanding else None` (truthiness on both
operands). -/
def value_per_share_step (intrinsic so : Option ℚ) : Option ℚ :=
  if truthy intrinsic && truthy so then some (intrinsic.getD 0 / so.getD 0)
  else none

/-- Line 98: `holding_value = value_per_share * shares if value_per_share
else None`. -/
def holding_value_step (vps : Option ℚ) (shares : ℚ) : Option ℚ :=
  if truthy vps then some (vps.getD 0 * shares) else none

/-- Lines 105–114: assembly of the per-holding output record; displayed
numeric fields are rounded to two decimals, each guarded by truthiness of
the values it is derived from. -/
def mk_result (ticker : String) (shares : ℚ) (vps mp hv : Option ℚ)
    (flag : Option String) : HoldingResult where
  ticker := ticker
  shares := shares
  valuePerShare := if truthy vps then some (round2 (vps.getD 0)) else none
  marketPrice := if truthy mp then some (round2 (mp.getD 0)) else none
  difference :=
    if truthy vps && truthy mp then some (round2 (vps.getD 0 - mp.getD 0))
    else none
  upsidePercent :=
    if truthy vps && truthy mp then
      some (round2 ((vps.getD 0 - mp.getD 0) / mp.getD 0 * 100))
    else none
  valuation := flag
  holdingValue := if truthy hv then some (round2 (hv.getD 0)) else none

/-- One iteration of the loop of `analyze_portfolio` (lines 87–114) on
one `(ticker, shares)` row: FCF resolution (errors caught inside
`get_fcf`), `dcf_valuation` (a `ZeroDivisionError` there propagates),
then the fetch of shares outstanding and current price — which is NOT
inside any `try`, so a retrieval error there propagates — and finally
the record assembly.  Returns the record and the unrounded
`holding_value` local. -/
def row_result (env : Env) (d g : ℚ) (n : ℕ) (row : String × ℚ) :
    Except Unit (HoldingResult × Option ℚ) :=
  match dcf_valuation (get_fcf env row.1) d g n with
  | .error e => .error e
  | .ok intrinsic =>
    match env.sharesOutstanding row.1 with
    | .error e => .error e
    | .ok so =>
      match env.currentPrice row.1 with
      | .error e => .error e
      | .ok mp =>
        let vps := value_per_share_step intrinsic so
        let hv := holding_value_step vps row.2
        .ok (mk_result row.1 row.2 vps mp hv (valuation_flag vps mp), hv)

/-- The unrounded `holding_value` local of one row (`none` also when the
row's processing raises). -/
def row_holding_value (env : Env) (d g : ℚ) (n : ℕ) (row : String × ℚ) :
    Option ℚ :=
  match row_result env d g n row with
  | .ok (_, hv) => hv
  | .error _ => none

/-- `analyze_portfolio` (lines 83–116): rows are processed in input
order; the running total adds each truthy holding value
(`if holding_value: total_value += holding_value`); an uncaught
exception in any row aborts the whole batch. -/
def analyze_portfolio (env : Env) (rows : List (String × ℚ)) (d g : ℚ)
    (n : ℕ) : Except Unit (List HoldingResult × ℚ) :=
  match rows with
  | [] => .ok ([], 0)
  | row :: rest =>
    match row_result env d g n row with
    | .error e => .error e
    | .ok (res, hv) =>
      match analyze_portfolio env rest d g n with
      | .error e => .error e
      | .ok (results, total) =>
        .ok (res :: results, (if truthy hv then hv.getD 0 else 0) + total)

/-- The same string with every character upper-cased: an extreme
re-casing of a label. -/
def upperCased (s : String) : String :=
  ⟨s.data.map Char.toUpper⟩

/-- Scenario D statement: only the fallback synonyms are present. -/
def stmtD : Statement :=
  [("Operating Cash Flow", 100, []),
    ("Capital Expenditures - Fixed Assets", -30, [])]

/-- Scenario D environment: the statement above, no summary FCF, no
market data. -/
def envScenarioD : Env where
  cashflow _ := .ok (some stmtD)
  freeCashflowInfo _ := .ok none
  sharesOutstanding _ := .ok none
  currentPrice _ := .ok none

/-- A statement with both standard labels present. -/
def stmtC6 : Statement :=
  [("Total Cash From Operating Activities", 100, []),
    ("Capital Expenditures", -20, [])]

/-- Aggregation example environment: fetches always succeed; only "AAA"
has cash-flow data. -/
def envC6 : Env where
  cashflow t := if t = "AAA" then .ok (some stmtC6) else .ok none
  freeCashflowInfo _ := .ok none
  sharesOutstanding _ := .ok (some 8)
  currentPrice _ := .ok (some 10)

/-- Failing environment: the shares-outstanding fetch raises for ticker
"BAD"; everything else succeeds. -/
def envC8 : Env where
  cashflow _ := .ok (some stmtC6)
  freeCashflowInfo _ := .ok none
  sharesOutstanding t := if t = "BAD" then .error () else .ok (some 8)
  currentPrice _ := .ok (some 10)

/-- Environment whose cash-flow retrieval raises. -/
def envCashflowErr : Env where
  cashflow _ := .error ()
  freeCashflowInfo _ := .error ()
  sharesOutstanding _ := .ok (some 1)
  currentPrice _ := .ok (some 1)

/-- Environment with an empty statement and a raising summary fetch. -/
def envSummaryErr : Env where
  cashflow _ := .ok (some [])
  freeCashflowInfo _ := .error ()
  sharesOutstanding _ := .ok (some 1)
  currentPrice _ := .ok (some 1)

/-- A statement with no capital-expenditure row. -/
def stmtNoCapex : Statement :=
  [("Total Cash From Operating Activities", 500, [])]

/-- Environment with the statement above and a summary FCF equal to
zero. -/
def envFallbackZero : Env where
  cashflow _ := .ok (some stmtNoCapex)
  freeCashflowInfo _ := .ok (some 0)
  sharesOutstanding _ := .ok (some 5)
  currentPrice _ := .ok (some 10)

/-- The code's recursive NPV sum equals the spec's indexed sum. -/
theorem npv_eq_projectedValueSpec (fcf d g : ℚ) (n : ℕ) :
    npv fcf d g n = projectedValueSpec fcf d g n := by
  induction n with
  | zero => simp [npv, projectedValueSpec]
  | succ n ih =>
    rw [npv, ih, projectedValueSpec, projectedValueSpec,
      Finset.sum_Icc_succ_top (Nat.succ_le_succ (Nat.zero_le n))]

/-- Core algebra: the NPV sum and the discounted terminal value
telescope to the Gordon perpetuity `fcf (1+g) / (d−g)`, for every
horizon `n`. -/
theorem npv_add_terminal (fcf d g : ℚ) (hd : 1 + d ≠ 0) (hdg : d - g ≠ 0)
    (n : ℕ) :
    npv fcf d g n + terminal_value_discounted fcf d g n
      = fcf * (1 + g) / (d - g) := by
  induction n with
  | zero => simp [npv, terminal_value_discounted, terminal_value]
  | succ n ih =>
    have hstep :
        fcf * (1 + g) ^ (n + 1) / (1 + d) ^ (n + 1)
          + terminal_value_discounted fcf d g (n + 1)
          = terminal_value_discounted fcf d g n := by
      have hpow : (1 + d) ^ n ≠ 0 := pow_ne_zero _ hd
      have hpow1 : (1 + d) ^ (n + 1) ≠ 0 := pow_ne_zero _ hd
      rw [terminal_value_discounted, terminal_value,
        terminal_value_discounted, terminal_value]
      field_simp
      ring
    calc npv fcf d g (n + 1) + terminal_value_discounted fcf d g (n + 1)
        = npv fcf d g n
            + (fcf * (1 + g) ^ (n + 1) / (1 + d) ^ (n + 1)
              + terminal_value_discounted fcf d g (n + 1)) := by
          rw [npv]; ring
      _ = npv fcf d g n + terminal_value_discounted fcf d g n := by
          rw [hstep]
      _ = fcf * (1 + g) / (d - g) := ih

/-- Unfolding of `dcf_valuation` at a present FCF value. -/
theorem dcf_valuation_some (f d g : ℚ) (n : ℕ) :
    dcf_valuation (some f) d g n
      = if f ≤ 0 then .ok none
        else if (1 + d = 0 ∧ 1 ≤ n) ∨ d = g then .error ()
        else .ok (some (npv f d g n + terminal_value_discounted f d g n)) :=
  rfl

/-- On positive FCF and rates with `0 < d` and `g < d`, `dcf_valuation`
returns the Gordon perpetuity value `f (1+g) / (d−g)`. -/
theorem dcf_valuation_closed_form (f d g : ℚ) (n : ℕ)
    (hf : 0 < f) (hd0 : 0 < d) (hgd : g < d) :
    dcf_valuation (some f) d g n = .ok (some (f * (1 + g) / (d - g))) := by
  have h1 : ¬ f ≤ 0 := not_le.mpr hf
  have hd : 1 + d ≠ 0 := by positivity
  have hdg : d - g ≠ 0 := sub_ne_zero.mpr (ne_of_gt hgd)
  have h2 : ¬ ((1 + d = 0 ∧ 1 ≤ n) ∨ d = g) := by
    push_neg
    exact ⟨fun hc => absurd hc hd, (ne_of_gt hgd)⟩
  rw [dcf_valuation_some, if_neg h1, if_neg h2, npv_add_terminal f d g hd hdg n]

/-- `(Char.ofNat n).toNat = n` for a valid code point. -/
theorem toNat_ofNat_valid (n : ℕ) (h : n.isValidChar) :
    (Char.ofNat n).toNat = n := by
  simp [Char.ofNat, h, Char.ofNatAux, Char.toNat, UInt32.toNat]

/-- Lower-casing after upper-casing is lower-casing. -/
theorem toLower_toUpper (c : Char) : (c.toUpper).toLower = c.toLower := by
  unfold Char.toUpper Char.toLower
  by_cases h : c.toNat ≥ 97 ∧ c.toNat ≤ 122
  · rw [if_pos h]
    have hv : (c.toNat - 32).isValidChar := by
      unfold Nat.isValidChar
      left; omega
    have h3 : c.toNat - 32 ≥ 65 ∧ c.toNat - 32 ≤ 90 := by omega
    rw [toNat_ofNat_valid _ hv,
      if_neg (by omega : ¬ (c.toNat ≥ 65 ∧ c.toNat ≤ 90)), if_pos h3]
    have h4 : c.toNat - 32 + 32 = c.toNat := by omega
    rw [h4, Char.ofNat_toNat]
  · rw [if_neg h]

/-- Lower-casing is blind to a prior upper-casing of the list. -/
theorem lowerStr_map_toUpper (l : List Char) :
    lowerStr (l.map Char.toUpper) = lowerStr l := by
  have h : Char.toLower ∘ Char.toUpper = Char.toLower := funext toLower_toUpper
  simp [lowerStr, List.map_map, h]

/-- Matching a candidate is unchanged by re-casing the label. -/
theorem labelMatches_upperCased (c l : String) :
    labelMatches c (upperCased l) = labelMatches c l := by
  simp [labelMatches, upperCased, lowerStr_map_toUpper]

/-- In the Scenario D statement, operating cash flow resolves to 100 via
the second candidate synonym. -/
theorem find_label_stmtD_ocf : find_label stmtD ocfLabels = some 100 := by
  have m1 : labelMatches "Total Cash From Operating Activities"
      "Operating Cash Flow" = false := by decide
  have m2 : labelMatches "Total Cash From Operating Activities"
      "Capital Expenditures - Fixed Assets" = false := by decide
  have m3 : labelMatches "Operating Cash Flow"
      "Operating Cash Flow" = true := by decide
  simp [find_label, stmtD, ocfLabels, List.find?, m1, m2, m3]

/-- In the Scenario D statement, capital expenditures resolve to −30 via
the substring match of the first candidate. -/
theorem find_label_stmtD_capex : find_label stmtD capexLabels = some (-30) := by
  have m4 : labelMatches "Capital Expenditures"
      "Capital Expenditures - Fixed Assets" = true := by decide
  have m5 : labelMatches "Capital Expenditures"
      "Operating Cash Flow" = false := by decide
  simp [find_label, stmtD, capexLabels, List.find?, m4, m5]

/-- In the two-label statement, operating cash flow resolves to 100. -/
theorem find_label_stmtC6_ocf : find_label stmtC6 ocfLabels = some 100 := by
  have m1 : labelMatches "Total Cash From Operating Activities"
      "Total Cash From Operating Activities" = true := by decide
  simp [find_label, stmtC6, ocfLabels, List.find?, m1]

/-- In the two-label statement, capital expenditures resolve to −20. -/
theorem find_label_stmtC6_capex :
    find_label stmtC6 capexLabels = some (-20) := by
  have m4 : labelMatches "Capital Expenditures"
      "Total Cash From Operating Activities" = false := by decide
  have m5 : labelMatches "Capital Expenditures"
      "Capital Expenditures" = true := by decide
  simp [find_label, stmtC6, capexLabels, List.find?, m4, m5]

/-- In the capex-free statement, operating cash flow resolves to 500. -/
theorem find_label_stmtNoCapex_ocf :
    find_label stmtNoCapex ocfLabels = some 500 := by
  have mo : labelMatches "Total Cash From Operating Activities"
      "Total Cash From Operating Activities" = true := by decide
  simp [find_label, stmtNoCapex, ocfLabels, List.find?, mo]

/-- In the capex-free statement, no capital-expenditure synonym
matches. -/
theorem find_label_stmtNoCapex_capex :
    find_label stmtNoCapex capexLabels = none := by
  have mc1 : labelMatches "Capital Expenditures"
      "Total Cash From Operating Activities" = false := by decide
  have mc2 : labelMatches "Capital Expenditures - Fixed Assets"
      "Total Cash From Operating Activities" = false := by decide
  simp [find_label, stmtNoCapex, capexLabels, List.find?, mc1, mc2]

/-- Adding a holding value guarded by truthiness is the same as adding
the value with a `0` default: a `some 0` adds nothing either way. -/
theorem truthy_contrib (hv : Option ℚ) :
    (if truthy hv then hv.getD 0 else 0) = hv.getD 0 := by
  cases hv with
  | none => simp [truthy]
  | some v =>
    by_cases h : v = 0
    · simp [truthy, h]
    · simp [truthy, h]

/-- With `1 + d ≠ 0` and `d ≠ g`, `dcf_valuation` never raises. -/
theorem dcf_valuation_isOk (fcf : Option ℚ) (d g : ℚ) (n : ℕ)
    (hd : 1 + d ≠ 0) (hdg : d ≠ g) :
    ∃ o, dcf_valuation fcf d g n = .ok o := by
  cases fcf with
  | none => exact ⟨none, rfl⟩
  | some f =>
    rw [dcf_valuation_some]
    by_cases hf : f ≤ 0
    · exact ⟨none, by rw [if_pos hf]⟩
    · have h2 : ¬ ((1 + d = 0 ∧ 1 ≤ n) ∨ d = g) := by
        push_neg
        exact ⟨fun hc => absurd hc hd, hdg⟩
      exact ⟨some (npv f d g n + terminal_value_discounted f d g n),
        by rw [if_neg hf, if_neg h2]⟩

/-- When the market-data fetches succeed and the rates cannot divide by
zero, a row is processed without raising, and the produced record keeps
the row's ticker. -/
theorem row_result_isOk (env : Env) (d g : ℚ) (n : ℕ) (row : String × ℚ)
    (hso : ∃ v, env.sharesOutstanding row.1 = .ok v)
    (hmp : ∃ v, env.currentPrice row.1 = .ok v)
    (hd : 1 + d ≠ 0) (hdg : d ≠ g) :
    ∃ res, row_result env d g n row
        = .ok (res, row_holding_value env d g n row)
      ∧ res.ticker = row.1 := by
  obtain ⟨o, hok⟩ := dcf_valuation_isOk (get_fcf env row.1) d g n hd hdg
  obtain ⟨so, hso2⟩ := hso
  obtain ⟨mp, hmp2⟩ := hmp
  have h1 : row_result env d g n row
      = .ok (mk_result row.1 row.2 (value_per_share_step o so) mp
          (holding_value_step (value_per_share_step o so) row.2)
          (valuation_flag (value_per_share_step o so) mp),
        holding_value_step (value_per_share_step o so) row.2) := by
    simp only [row_result, hok, hso2, hmp2]
  have h2 : row_holding_value env d g n row
      = holding_value_step (value_per_share_step o so) row.2 := by
    simp only [row_holding_value, h1]
  refine ⟨mk_result row.1 row.2 (value_per_share_step o so) mp
      (holding_value_step (value_per_share_step o so) row.2)
      (valuation_flag (value_per_share_step o so) mp), ?_, rfl⟩
  rw [h1, h2]

/-- C1: the claim says that whenever `discountRate ≤ growthRate` the
calculator returns "unavailable".  The code has no such guard: with
`fcf = 1`, `d = 1/20 < g = 1/10` it returns the negative number `−22`,
and with `d = g = 1/10` the terminal-value division raises
`ZeroDivisionError` (an uncaught exception inside `dcf_valuation`). -/
theorem c1_no_rate_guard :
    dcf_valuation (some 1) (1/20) (1/10) 5 = .ok (some (-22))
      ∧ dcf_valuation (some 1) (1/10) (1/10) 5 = .error () := by
  constructor
  · norm_num [dcf_valuation, npv, terminal_value_discounted, terminal_value]
  · norm_num [dcf_valuation]

/-- C2: for positive FCF, a positive discount rate above the growth
rate, and a positive horizon, `dcf_valuation` returns exactly the spec's
projected sum `Σ_{year=1}^{n} fcf (1+g)^year / (1+d)^year` plus the
spec's terminal value `fcf (1+g)^n (1+g) / (d−g)` discounted by
`(1+d)^n`. -/
theorem c2_dcf_matches_spec_formula (f d g : ℚ) (n : ℕ)
    (hf : 0 < f) (hd0 : 0 < d) (hgd : g < d) (hn : 1 ≤ n) :
    dcf_valuation (some f) d g n
      = .ok (some (projectedValueSpec f d g n
          + terminalValueDiscountedSpec f d g n)) := by
  have h1 : ¬ f ≤ 0 := not_le.mpr hf
  have hd : 1 + d ≠ 0 := by positivity
  have h2 : ¬ ((1 + d = 0 ∧ 1 ≤ n) ∨ d = g) := by
    push_neg
    exact ⟨fun hc => absurd hc hd, (ne_of_gt hgd)⟩
  rw [dcf_valuation_some, if_neg h1, if_neg h2, npv_eq_projectedValueSpec]
  rfl

/-- C2 witness: the formula claim instantiated at
`fcf = 1000000`, `d = 1/10`, `g = 1/20`, `n = 5`. -/
theorem c2_dcf_matches_spec_formula_witness :
    dcf_valuation (some 1000000) (1/10) (1/20) 5
      = .ok (some (projectedValueSpec 1000000 (1/10) (1/20) 5
          + terminalValueDiscountedSpec 1000000 (1/10) (1/20) 5)) :=
  c2_dcf_matches_spec_formula 1000000 (1/10) (1/20) 5 (by norm_num)
    (by norm_num) (by norm_num) (by norm_num)

/-- C3: `dcf_valuation` returns "unavailable" (`None`, without raising)
whenever FCF is absent or non-positive, for every parameter setting. -/
theorem c3_nonpositive_fcf_unavailable (fcf : Option ℚ) (d g : ℚ) (n : ℕ)
    (h : fcf = none ∨ ∃ v, fcf = some v ∧ v ≤ 0) :
    dcf_valuation fcf d g n = .ok none := by
  rcases h with h | ⟨v, rfl, hv⟩
  · rw [h]; rfl
  · rw [dcf_valuation_some, if_pos hv]

/-- C3 witness: `fcf = 0` gives "unavailable" at the default
parameters. -/
theorem c3_nonpositive_fcf_unavailable_witness :
    dcf_valuation (some 0) (1/10) (1/20) 5 = .ok none :=
  c3_nonpositive_fcf_unavailable (some 0) (1/10) (1/20) 5
    (Or.inr ⟨0, rfl, le_refl 0⟩)

/-- C4 counterexample: at `fcf = 1`, `d = 1/10`, `g = 1/20`, moving the
horizon from 1 to 2 years does not strictly increase the value — both
horizons give exactly 21 — so the claimed strict monotonicity in
`projectionYears` fails. -/
theorem c4_counterexample :
    ¬ ∃ v₁ v₂ : ℚ,
        dcf_valuation (some 1) (1/10) (1/20) 1 = .ok (some v₁)
          ∧ dcf_valuation (some 1) (1/10) (1/20) 2 = .ok (some v₂)
          ∧ v₁ < v₂ := by
  rintro ⟨v₁, v₂, h1, h2, hlt⟩
  have e1 : dcf_valuation (some 1) (1/10) (1/20) 1 = .ok (some 21) := by
    norm_num [dcf_valuation, npv, terminal_value_discounted, terminal_value]
  have e2 : dcf_valuation (some 1) (1/10) (1/20) 2 = .ok (some 21) := by
    norm_num [dcf_valuation, npv, terminal_value_discounted, terminal_value]
  rw [e1] at h1
  rw [e2] at h2
  obtain rfl : v₁ = 21 := (Option.some_inj.mp (Except.ok.inj h1)).symm
  obtain rfl : v₂ = 21 := (Option.some_inj.mp (Except.ok.inj h2)).symm
  exact lt_irrefl _ hlt

/-- C4 amended: for positive FCF and a positive discount rate above the
growth rate, the intrinsic value is unchanged (not strictly increased)
when the horizon grows by one year: the extra NPV term and the shrinkage
of the discounted terminal value cancel exactly, so the result is
constant in `projectionYears`. -/
theorem c4_amended_value_constant_in_horizon (f d g : ℚ) (n : ℕ)
    (hf : 0 < f) (hd0 : 0 < d) (hgd : g < d) (hn : 1 ≤ n) :
    dcf_valuation (some f) d g (n + 1) = dcf_valuation (some f) d g n := by
  rw [dcf_valuation_closed_form f d g (n + 1) hf hd0 hgd,
    dcf_valuation_closed_form f d g n hf hd0 hgd]

/-- C4 amended witness: horizons 1 and 2 agree at
`fcf = 1`, `d = 1/10`, `g = 1/20`. -/
theorem c4_amended_value_constant_in_horizon_witness :
    dcf_valuation (some 1) (1/10) (1/20) 2
      = dcf_valuation (some 1) (1/10) (1/20) 1 :=
  c4_amended_value_constant_in_horizon 1 (1/10) (1/20) 1 (by norm_num)
    (by norm_num) (by norm_num) (le_refl 1)

/-- C5: label matching in the FCF resolver.  (i) A candidate that matches
no statement label falls through to the next candidate; (ii) the first
candidate that matches takes the first matching row in statement order
and returns its most recent value; (iii) when both quantities resolve,
FCF is their SUM; (iv) the result is unchanged when every label is
re-cased; (v) Scenario D: a statement with only "Operating Cash Flow"
and "Capital Expenditures - Fixed Assets" resolves both via the synonym
fallback, giving `100 + (−30) = 70`. -/
theorem c5_resolver_matching :
    (∀ (cf : Statement) (c : String) (cs : List String),
        (∀ item ∈ cf, labelMatches c item.1 = false) →
        find_label cf (c :: cs) = find_label cf cs)
      ∧ (∀ (pre : Statement) (item : StmtItem) (post : Statement)
            (c : String) (cs : List String),
          (∀ i ∈ pre, labelMatches c i.1 = false) →
          labelMatches c item.1 = true →
          find_label (pre ++ item :: post) (c :: cs) = some item.2.1)
      ∧ (∀ (env : Env) (t : String) (cf : Statement) (o cpx : ℚ),
          env.cashflow t = .ok (some cf) →
          find_label cf ocfLabels = some o →
          find_label cf capexLabels = some cpx →
          get_fcf env t = some (o + cpx))
      ∧ (∀ (cf : Statement) (cands : List String),
          find_label (cf.map fun item => (upperCased item.1, item.2)) cands
            = find_label cf cands)
      ∧ get_fcf envScenarioD "D" = some 70 := by
  have hfallthrough : ∀ (cf : Statement) (c : String) (cs : List String),
      (∀ item ∈ cf, labelMatches c item.1 = false) →
      find_label cf (c :: cs) = find_label cf cs := by
    intro cf c cs h
    have hnone : cf.find? (fun item => labelMatches c item.1) = none :=
      List.find?_eq_none.mpr fun a ha => by rw [h a ha]; simp
    simp [find_label, hnone]
  refine ⟨hfallthrough, ?_, ?_, ?_, ?_⟩
  · intro pre item post c cs hpre hitem
    have hpre2 : pre.find? (fun i => labelMatches c i.1) = none :=
      List.find?_eq_none.mpr fun a ha => by rw [hpre a ha]; simp
    rw [find_label, List.find?_append, hpre2, Option.none_or]
    simp [List.find?_cons, hitem]
  · intro env t cf o cpx hcf ho hcx
    simp [get_fcf, hcf, ho, hcx]
  · intro cf cands
    induction cands with
    | nil => rfl
    | cons c cs ih =>
      rw [find_label, find_label, List.find?_map]
      have hp :
          (fun item : StmtItem => labelMatches c item.1) ∘
              (fun item : StmtItem => (upperCased item.1, item.2))
            = fun item : StmtItem => labelMatches c item.1 :=
        funext fun item => labelMatches_upperCased c item.1
      rw [hp]
      cases hfind : cf.find? (fun item : StmtItem => labelMatches c item.1) with
      | none => simpa using ih
      | some item => simp
  · have hsum : get_fcf envScenarioD "D" = some (100 + (-30)) := by
      simp [get_fcf, envScenarioD, find_label_stmtD_ocf, find_label_stmtD_capex]
    rw [hsum]
    norm_num

/-- C5 witness: the hypothesis-bearing parts of the matching theorem
instantiated on the Scenario D statement. -/
theorem c5_resolver_matching_witness :
    find_label stmtD
        ("Total Cash From Operating Activities" :: ["Operating Cash Flow"])
      = find_label stmtD ["Operating Cash Flow"]
      ∧ find_label
          ([] ++ ("Operating Cash Flow", (100:ℚ), ([]:List ℚ)) ::
            [("Capital Expenditures - Fixed Assets", (-30:ℚ), ([]:List ℚ))])
          ("Operating Cash Flow" :: []) = some 100
      ∧ get_fcf envScenarioD "D" = some (100 + (-30)) := by
  refine ⟨?_, ?_, ?_⟩
  · exact c5_resolver_matching.1 stmtD "Total Cash From Operating Activities"
      ["Operating Cash Flow"] (by decide)
  · exact c5_resolver_matching.2.1 []
      ("Operating Cash Flow", (100:ℚ), ([]:List ℚ))
      [("Capital Expenditures - Fixed Assets", (-30:ℚ), ([]:List ℚ))]
      "Operating Cash Flow" [] (by decide) (by decide)
  · exact c5_resolver_matching.2.2.1 envScenarioD "D" stmtD 100 (-30) rfl
      find_label_stmtD_ocf find_label_stmtD_capex

/-- C6: when the per-holding market-data fetches succeed (and the rates
cannot make `dcf_valuation` raise), `analyze_portfolio` returns one
record per input row, in input order — a holding all of whose value
fields are unavailable is still present — and the total is the sum of
the per-row unrounded holding values, an absent holding value
contributing exactly `0`. -/
theorem c6_aggregate_shape_and_total (env : Env)
    (rows : List (String × ℚ)) (d g : ℚ) (n : ℕ)
    (hfetch : ∀ r ∈ rows, (∃ v, env.sharesOutstanding r.1 = .ok v)
        ∧ (∃ v, env.currentPrice r.1 = .ok v))
    (hd : 1 + d ≠ 0) (hdg : d ≠ g) :
    ∃ results total,
      analyze_portfolio env rows d g n = .ok (results, total)
        ∧ results.map (fun r => r.ticker) = rows.map (fun r => r.1)
        ∧ results.length = rows.length
        ∧ total = (rows.map
            (fun r => (row_holding_value env d g n r).getD 0)).sum := by
  induction rows with
  | nil => exact ⟨[], 0, rfl, rfl, rfl, by simp⟩
  | cons row rest ih =>
    obtain ⟨res, hrow, hticker⟩ := row_result_isOk env d g n row
      (hfetch row (List.mem_cons_self row rest)).1
      (hfetch row (List.mem_cons_self row rest)).2 hd hdg
    obtain ⟨results, total, hrest, hmap, hlen, htot⟩ :=
      ih fun r hr => hfetch r (List.mem_cons_of_mem row hr)
    refine ⟨res :: results,
      (if truthy (row_holding_value env d g n row)
        then (row_holding_value env d g n row).getD 0 else 0) + total,
      ?_, ?_, ?_, ?_⟩
    · simp only [analyze_portfolio, hrow, hrest]
    · simp [hmap, hticker]
    · simp [hlen]
    · rw [truthy_contrib, htot]
      simp

/-- C6 witness: a two-holding portfolio where the second holding has no
data at all is aggregated into two ordered records. -/
theorem c6_aggregate_shape_and_total_witness :
    ∃ results total,
      analyze_portfolio envC6 [("AAA", 2), ("BBB", 3)] (1/10) (1/20) 5
          = .ok (results, total)
        ∧ results.map (fun r => r.ticker)
            = [("AAA", (2:ℚ)), ("BBB", 3)].map (fun r => r.1)
        ∧ results.length = [("AAA", (2:ℚ)), ("BBB", 3)].length
        ∧ total = ([("AAA", (2:ℚ)), ("BBB", 3)].map
            (fun r => (row_holding_value envC6 (1/10) (1/20) 5 r).getD 0)).sum :=
  c6_aggregate_shape_and_total envC6 [("AAA", 2), ("BBB", 3)] (1/10) (1/20) 5
    (fun r _ => ⟨⟨some 8, rfl⟩, ⟨some 10, rfl⟩⟩) (by norm_num) (by norm_num)

/-- C7: with value per share and market price both present (truthy), the
record's difference is `valuePerShare − marketPrice`, the upside is
`difference / marketPrice × 100`, the holding value is
`valuePerShare × shares` (each as displayed, rounded to two decimals),
and the flag compares the relative difference against the `0.10`
tolerance band; a flag with either side absent is unavailable. -/
theorem c7_comparison_fields (t : String) (shares vps mp : ℚ)
    (hvps : vps ≠ 0) (hmp : mp ≠ 0) (hsh : shares ≠ 0) :
    ((mk_result t shares (some vps) (some mp)
        (holding_value_step (some vps) shares)
        (valuation_flag (some vps) (some mp))).difference
        = some (round2 (vps - mp)))
      ∧ ((mk_result t shares (some vps) (some mp)
          (holding_value_step (some vps) shares)
          (valuation_flag (some vps) (some mp))).upsidePercent
          = some (round2 ((vps - mp) / mp * 100)))
      ∧ ((mk_result t shares (some vps) (some mp)
          (holding_value_step (some vps) shares)
          (valuation_flag (some vps) (some mp))).holdingValue
          = some (round2 (vps * shares)))
      ∧ ((mk_result t shares (some vps) (some mp)
          (holding_value_step (some vps) shares)
          (valuation_flag (some vps) (some mp))).valuation
          = if (vps - mp) / mp > tolerance then some "Undervalued"
            else if (vps - mp) / mp < -tolerance then some "Overvalued"
            else some "Fairly Valued")
      ∧ (∀ x : Option ℚ, valuation_flag none x = none)
      ∧ (∀ x : Option ℚ, valuation_flag x none = none) := by
  have htv : truthy (some vps) = true := by simp [truthy, hvps]
  have htm : truthy (some mp) = true := by simp [truthy, hmp]
  have hhv : holding_value_step (some vps) shares = some (vps * shares) := by
    simp [holding_value_step, htv]
  have htvs : truthy (some (vps * shares)) = true := by
    simp [truthy, mul_ne_zero hvps hsh]
  refine ⟨?_, ?_, ?_, ?_, ?_, ?_⟩
  · simp [mk_result, htv, htm]
  · simp [mk_result, htv, htm]
  · simp [mk_result, hhv, htvs]
  · simp [mk_result, valuation_flag, htv, htm]
  · intro x
    simp [valuation_flag, truthy]
  · intro x
    cases x <;> simp [valuation_flag, truthy]

/-- C7 witness — Scenario B: shares 20, value per share 150, market
price 100 give difference 50, upside 50%, flag "Undervalued", holding
value 3000. -/
theorem c7_comparison_fields_witness :
    ((mk_result "B" 20 (some 150) (some 100)
        (holding_value_step (some 150) 20)
        (valuation_flag (some 150) (some 100))).difference = some 50)
      ∧ ((mk_result "B" 20 (some 150) (some 100)
          (holding_value_step (some 150) 20)
          (valuation_flag (some 150) (some 100))).upsidePercent = some 50)
      ∧ ((mk_result "B" 20 (some 150) (some 100)
          (holding_value_step (some 150) 20)
          (valuation_flag (some 150) (some 100))).holdingValue = some 3000)
      ∧ ((mk_result "B" 20 (some 150) (some 100)
          (holding_value_step (some 150) 20)
          (valuation_flag (some 150) (some 100))).valuation
          = some "Undervalued") := by
  obtain ⟨h1, h2, h3, h4, -, -⟩ :=
    c7_comparison_fields "B" 20 150 100 (by norm_num) (by norm_num)
      (by norm_num)
  refine ⟨?_, ?_, ?_, ?_⟩
  · rw [h1]; norm_num [round2]
  · rw [h2]; norm_num [round2]
  · rw [h3]; norm_num [round2]
  · rw [h4]; norm_num [tolerance]

/-- C8: retrieval errors during FCF resolution are caught and converted
to an absent FCF (first two conjuncts), but a retrieval error in the
shares-outstanding/market-price fetch is NOT caught at the holding
boundary: with holdings "BAD" (whose fetch raises) and "GOOD", the
whole batch aborts with the exception and the sibling "GOOD" produces
no record, contradicting the claim. -/
theorem c8_fetch_error_handling :
    (∀ (env : Env) (t : String), env.cashflow t = .error () →
        get_fcf env t = none)
      ∧ (∀ (env : Env) (t : String) (cf : Statement),
          env.cashflow t = .ok (some cf) →
          find_label cf ocfLabels = none →
          env.freeCashflowInfo t = .error () →
          get_fcf env t = none)
      ∧ analyze_portfolio envC8 [("BAD", 1), ("GOOD", 2)] (1/10) (1/20) 5
          = .error () := by
  refine ⟨?_, ?_, ?_⟩
  · intro env t h
    simp [get_fcf, h]
  · intro env t cf hcf ho herr
    simp [get_fcf, hcf, ho, herr]
  · have hfcf : get_fcf envC8 "BAD" = some 80 := by
      have hsum : get_fcf envC8 "BAD" = some (100 + (-20)) := by
        simp [get_fcf, envC8, find_label_stmtC6_ocf, find_label_stmtC6_capex]
      rw [hsum]
      norm_num
    have hdcf : dcf_valuation (get_fcf envC8 "BAD") (1/10) (1/20) 5
        = .ok (some (80 * (1 + 1/20) / (1/10 - 1/20))) := by
      rw [hfcf]
      exact dcf_valuation_closed_form 80 (1/10) (1/20) 5 (by norm_num)
        (by norm_num) (by norm_num)
    have hso : envC8.sharesOutstanding "BAD" = .error () := by
      simp [envC8]
    have hrow : row_result envC8 (1/10) (1/20) 5 ("BAD", 1) = .error () := by
      simp only [row_result, hdcf, hso]
    simp only [analyze_portfolio, hrow]

/-- C8 witness: the error-catching conjuncts instantiated on concrete
raising environments. -/
theorem c8_fetch_error_handling_witness :
    get_fcf envCashflowErr "X" = none ∧ get_fcf envSummaryErr "Y" = none :=
  ⟨c8_fetch_error_handling.1 envCashflowErr "X" rfl,
    c8_fetch_error_handling.2.1 envSummaryErr "Y" [] rfl rfl rfl⟩

/-- C9: in exact arithmetic the value computed by `dcf_valuation` for
positive FCF and `discountRate > growthRate` is exactly the perpetuity
`fcf (1+g) / (d−g)`, for every positive horizon — the result does not
depend on `projectionYears`. -/
theorem c9_closed_form_perpetuity (f d g : ℚ) (n : ℕ)
    (hf : 0 < f) (hd0 : 0 < d) (hgd : g < d) (hn : 1 ≤ n) :
    dcf_valuation (some f) d g n = .ok (some (f * (1 + g) / (d - g))) :=
  dcf_valuation_closed_form f d g n hf hd0 hgd

/-- C9 witness: at `fcf = 1000000`, `d = 1/10`, `g = 1/20`, `n = 5`
the value is `1000000 × (21/20) / (1/20)`. -/
theorem c9_closed_form_perpetuity_witness :
    dcf_valuation (some 1000000) (1/10) (1/20) 5
      = .ok (some (1000000 * (1 + 1/20) / (1/10 - 1/20))) :=
  c9_closed_form_perpetuity 1000000 (1/10) (1/20) 5 (by norm_num)
    (by norm_num) (by norm_num) (by norm_num)

/-- C10: presence is tested by Python truthiness, so the numeric value
`0` is conflated with "unavailable" everywhere: a summary-FCF fallback
of `0` makes `get_fcf` return `None` instead of `0`; a market price of
`0` makes the flag unavailable and leaves difference and upside absent;
a value per share of `0` makes the holding value absent, and such an
absent value contributes `0` to the running total. -/
theorem c10_truthiness_conflates_zero :
    get_fcf envFallbackZero "Z" = none
      ∧ valuation_flag (some 80) (some 0) = none
      ∧ (mk_result "Z" 5 (some 80) (some 0)
          (holding_value_step (some 80) 5)
          (valuation_flag (some 80) (some 0))).difference = none
      ∧ (mk_result "Z" 5 (some 80) (some 0)
          (holding_value_step (some 80) 5)
          (valuation_flag (some 80) (some 0))).upsidePercent = none
      ∧ holding_value_step (some 0) 5 = none
      ∧ (if truthy (holding_value_step (some 0) 5)
          then (holding_value_step (some 0) 5).getD 0 else 0) = 0 := by
  have htz : truthy (some (0:ℚ)) = false := by simp [truthy]
  have h5 : holding_value_step (some 0) 5 = none := by
    simp [holding_value_step, htz]
  refine ⟨?_, ?_, ?_, ?_, h5, ?_⟩
  · simp [get_fcf, envFallbackZero, find_label_stmtNoCapex_ocf,
      find_label_stmtNoCapex_capex]
  · simp [valuation_flag, htz]
  · simp [mk_result, htz]
  · simp [mk_result, htz]
  · rw [h5]
    simp [truthy]

end DCF
